import Mathlib

/-!
Verification of the DoomClone raycaster: a shallow embedding of the tile map,
texture atlas, player movement, sprite pass, hit test and DDA wall search,
with theorems checking the specification's claims against the code.
-/

set_option maxRecDepth 8000

namespace DoomClone

/-- Width of the `size_t` value range on the 64-bit target (2^64). -/
def usize : Nat := 18446744073709551616

/-- C++ `size_t` decrement `i - 1`: wraps modulo 2^64 when `i = 0`. -/
def sub1 (i : Nat) : Nat := (i + (usize - 1)) % usize

/-- Map width (`Map::w`), fixed at 16 by the constructor. -/
def mapW : Nat := 16

/-- Map height (`Map::h`), fixed at 16 by the constructor. -/
def mapH : Nat := 16

/-- The hard-coded 16x16 game map string from `map.cpp`
(`1` wall, `3` closed door, `9` door-threshold marker, space empty). -/
def mapData : List Char :=
  ("1111111111111111" ++
   "1              1" ++
   "1     1111131111" ++
   "1     1    9   1" ++
   "1     1        1" ++
   "1 9   1        1" ++
   "113111111      1" ++
   "1   1   1      1" ++
   "1   1   1      1" ++
   "1   11311      1" ++
   "1     9 1      1" ++
   "1       1      1" ++
   "111111111      1" ++
   "1              1" ++
   "1              1" ++
   "1111111111111111").data

/-- Body of `Map::get`: cell code `map[i + j*w] - '0'` on a map state `m`
(the map is mutable via `open_door`, so it is passed explicitly). -/
def cellCode (m : List Char) (i j : Nat) : Int :=
  ((m.getD (i + j * mapW) ' ').toNat : Int) - 48

/-- Total version of `Map::get`: the source performs no bounds check (its
assert is commented out), so out-of-grid coordinates yield `none` rather
than any cell code. -/
def mget (m : List Char) (i j : Nat) : Option Int :=
  if i < mapW ∧ j < mapH then some (cellCode m i j) else none

/-- `Map::is_empty`: cell is walkable when it holds a space or `'9'`;
the assert `i<w && j<h` is modeled by returning `false` out of bounds
(no in-bounds claim ever reaches that branch). -/
def is_empty (m : List Char) (i j : Nat) : Bool :=
  if i < mapW ∧ j < mapH then
    decide (m.getD (i + j * mapW) ' ' = ' ' ∨ m.getD (i + j * mapW) ' ' = '9')
  else false

/-- `Map::open_door`: rewrite a `'3'` cell to space, otherwise leave the map
unchanged (the assert is modeled by the outer bounds guard). -/
def open_door (m : List Char) (i j : Nat) : List Char :=
  if i < mapW ∧ j < mapH then
    if m.getD (i + j * mapW) ' ' = '3' then m.set (i + j * mapW) ' ' else m
  else m

/-- `Map::check_door`: probe the four axis neighbors in the order
`(i+1,j)`, `(i-1,j)`, `(i,j+1)`, `(i,j-1)` for code 3, with `size_t`
decrement semantics on the coordinates. -/
def check_door (m : List Char) (i j : Nat) : Int × Int :=
  if mget m (i + 1) j = some 3 then (1, 0)
  else if mget m (sub1 i) j = some 3 then (-1, 0)
  else if mget m i (j + 1) = some 3 then (0, 1)
  else if mget m i (sub1 j) = some 3 then (0, -1)
  else (0, 0)

/-- The spec's scan order for `checkDoorAdjacency`: +x, -x, +y, -y. -/
def doorOffsets : List (Int × Int) := [(1, 0), (-1, 0), (0, 1), (0, -1)]

/-- Spec-side predicate: the neighbor of `(i,j)` at offset `d` holds the
closed-door code 3. -/
def neighborIsDoor (m : List Char) (i j : Nat) (d : Int × Int) : Bool :=
  decide (mget m ((i : Int) + d.1).toNat ((j : Int) + d.2).toNat = some 3)

/-- Modelled from the spec: `checkDoorAdjacency` returns the unit offset of
the first neighbor (in the fixed order +x, -x, +y, -y) holding a
closed-door code, or `(0,0)` if none. -/
def doorScanSpec (m : List Char) (i j : Nat) : Int × Int :=
  ((doorOffsets.find? (neighborIsDoor m i j)).getD (0, 0))

/-- In-bounds condition for all four neighbor probes made by
`Map::check_door`, under `size_t` coordinate arithmetic. -/
def checkDoorProbesInBounds (i j : Nat) : Prop :=
  (i + 1 < mapW ∧ j < mapH) ∧ (sub1 i < mapW ∧ j < mapH) ∧
  (i < mapW ∧ j + 1 < mapH) ∧ (i < mapW ∧ sub1 j < mapH)

instance (i j : Nat) : Decidable (checkDoorProbesInBounds i j) := by
  unfold checkDoorProbesInBounds
  infer_instance

/-- `pack_color` from `tinyraycaster.cpp`: `(a<<24) + (b<<16) + (g<<8) + r`
(for byte inputs the sum fits in 32 bits, so plain `Nat` arithmetic is exact). -/
def pack_color (r g b a : Nat) : Nat := a * 2 ^ 24 + b * 2 ^ 16 + g * 2 ^ 8 + r

/-- The alpha channel extracted by `unpack_color`: `(color >> 24) & 255`. -/
def alphaOf (color : Nat) : Nat := color / 2 ^ 24 % 256

/-- The `Texture` object state after a successful load: atlas dimensions,
tile count and size, and the flat packed-pixel buffer `img` (indexed as in
the source, `i + idx*size + j*img_w`). -/
structure Texture where
  img_w : Nat
  img_h : Nat
  count : Nat
  size : Nat
  img : Nat → Nat

/-- `Texture::get`: `img[i + idx*size + j*img_w]`
(asserted precondition `i < size ∧ j < size ∧ idx < count`). -/
def Texture.get (t : Texture) (i j idx : Nat) : Nat :=
  t.img (i + idx * t.size + j * t.img_w)

/-- `Texture::get_scaled_column`: output row `y` samples source row
`y*size/column_height` (Nat division is the source's `size_t` division). -/
def Texture.get_scaled_column (t : Texture) (texture_id tex_coord column_height : Nat) :
    List Nat :=
  (List.range column_height).map fun y => t.get tex_coord (y * t.size / column_height) texture_id

/-- A decoded-and-converted SDL surface as seen by the `Texture` constructor:
dimensions, pitch, and the per-index RGBA bytes read from `surface->pixels`. -/
structure Surface where
  w : Nat
  h : Nat
  pitch : Nat
  red : Nat → Nat
  green : Nat → Nat
  blue : Nat → Nat
  alpha : Nat → Nat

/-- Outcome of the `Texture` constructor after the decode/convert stage. -/
inductive TexLoad where
  | errDecode : TexLoad
  | errNot32Bit : TexLoad
  | ok : Texture → TexLoad

/-- The number of atlas tiles visible to callers: a failed constructor leaves
the member-initialized `count = 0` (this is what `gui.cpp` tests). -/
def texCount : TexLoad → Nat
  | .ok t => t.count
  | _ => 0

/-- The `Texture` value built by the success path of the constructor:
`count = w/h`, `size = w/count`, pixels packed with `pack_color`. -/
def mkTexture (s : Surface) : Texture :=
  { img_w := s.w, img_h := s.h, count := s.w / s.h, size := s.w / (s.w / s.h),
    img := fun n => pack_color (s.red n) (s.green n) (s.blue n) (s.alpha n) }

/-- The `Texture::Texture` constructor from `textures.cpp`, after SDL decoding
(`none` models a failed `SDL_LoadBMP`/`SDL_ConvertSurfaceFormat`): reject when
`w*4 != pitch`; the historical square-tile check `w != h*int(w/h)` is commented
out as deprecated in the source, so the constructor then unconditionally sets
`count = w/h`, `size = w/count` and packs the pixel buffer. -/
def textureCtor (s : Option Surface) : TexLoad :=
  match s with
  | none => .errDecode
  | some s =>
    if s.w * 4 ≠ s.pitch then .errNot32Bit
    else .ok (mkTexture s)

/-- C++ cast of a (nonnegative-or-negative) real value to `int`:
truncation toward zero, on the rational model of the float value. -/
def cppTrunc (q : ℚ) : Int := if q < 0 then -(⌊-q⌋) else ⌊q⌋

/-- `Map::is_empty` as invoked from `Player::update_position`, where the
float coordinates are converted to cell indices; negative or out-of-range
cells are not walkable cells. -/
def is_emptyZ (m : List Char) (i j : Int) : Bool :=
  if 0 ≤ i ∧ i < 16 ∧ 0 ≤ j ∧ j < 16 then is_empty m i.toNat j.toNat else false

/-- `Player::update_position` from `player.cpp`, taking the already-computed
candidate coordinates `nx = x + walk*cos(a)*0.1` and `ny = y + walk*sin(a)*0.1`
as inputs (their trigonometric computation is floating point and enters the
model as data): bounds-check the candidates, then commit each axis
independently, the y check using the possibly already-updated x. -/
def upd_x (m : List Char) (x y nx : ℚ) : ℚ :=
  if is_emptyZ m (cppTrunc nx) (cppTrunc y) then nx else x

def upd_y (m : List Char) (x' y ny : ℚ) : ℚ :=
  if is_emptyZ m (cppTrunc x') (cppTrunc ny) then ny else y

def update_position (m : List Char) (x y nx ny : ℚ) : ℚ × ℚ :=
  if 0 ≤ cppTrunc nx ∧ cppTrunc nx < 16 ∧ 0 ≤ cppTrunc ny ∧ cppTrunc ny < 16 then
    (upd_x m x y nx, upd_y m (upd_x m x y nx) y ny)
  else (x, y)

/-- Frame buffer as a pixel map `(x, y) ↦ packed color`; the source stores a
flat `w*h` vector indexed `x + y*w` and `set_pixel` asserts `x < w ∧ y < h`,
so the two views agree on every asserted access. -/
def FrameBufferFn : Type := Nat → Nat → Nat

/-- `FrameBuffer::set_pixel`. -/
def set_pixel (fb : FrameBufferFn) (x y c : Nat) : FrameBufferFn :=
  fun x' y' => if x' = x ∧ y' = y then c else fb x' y'

/-- Body of the inner `j` loop of `draw_sprite`: clip the row against the
screen, sample the monster atlas at the scaled coordinate, and blit only
when the sampled alpha exceeds 128. `colN` is the screen column
`(h_offset + i)` of the enclosing iteration. -/
def spriteInnerStep (v_offset : Int) (fbH : Nat) (tex : Texture) (tex_id sss i colN : Nat)
    (fb : FrameBufferFn) (j : Nat) : FrameBufferFn :=
  if v_offset + (j : Int) < 0 ∨ fbH ≤ (v_offset + (j : Int)).toNat then fb
  else
    let color := tex.get (i * tex.size / sss) (j * tex.size / sss) tex_id
    if 128 < alphaOf color then
      set_pixel fb colN (v_offset + (j : Int)).toNat color
    else fb

/-- Body of the outer `i` loop of `draw_sprite`: clip the column against the
screen, skip the whole column when `depth_buffer[h_offset + i] < sprite_dist`
(a wall is strictly nearer), otherwise run the inner row loop. -/
def spriteOuterStep (sprite_dist : ℚ) (h_offset v_offset : Int) (fbW fbH : Nat)
    (depth : Nat → ℚ) (tex : Texture) (tex_id sss : Nat)
    (fb : FrameBufferFn) (i : Nat) : FrameBufferFn :=
  if h_offset + (i : Int) < 0 ∨ fbW ≤ (h_offset + (i : Int)).toNat then fb
  else if depth (h_offset + (i : Int)).toNat < sprite_dist then fb
  else
    (List.range sss).foldl
      (spriteInnerStep v_offset fbH tex tex_id sss i (h_offset + (i : Int)).toNat) fb

/-- `draw_sprite` from the DDA renderer in the source, taking the sprite's
bearing `sprite_dir` (the `atan2` result, already normalized by the two while
loops) and Euclidean distance `sprite_dist` (the `sqrt` result) as rational
inputs. Integer divisions `fb.w/2`, `sprite_screen_size/2`, `fb.h/2` are the
source's `size_t` divisions; `v_offset` is computed as a signed value, which
is what the source's conversion to `int` produces on the target. -/
def draw_sprite (sprite_dir sprite_dist a fov : ℚ) (fbW fbH : Nat) (depth : Nat → ℚ)
    (tex : Texture) (tex_id : Nat) (fb₀ : FrameBufferFn) : FrameBufferFn :=
  if 15 < sprite_dist then fb₀
  else
    let sss : Nat := min 1000 (cppTrunc ((fbH : ℚ) / sprite_dist)).toNat
    let h_offset : Int := cppTrunc ((sprite_dir - a) * (fbW : ℚ) / fov + ((fbW / 2 : Nat) : ℚ)
      - ((sss / 2 : Nat) : ℚ))
    let v_offset : Int := ((fbH / 2 : Nat) : Int) - ((sss / 2 : Nat) : Int)
    (List.range sss).foldl
      (spriteOuterStep sprite_dist h_offset v_offset fbW fbH depth tex tex_id sss) fb₀

/-- A monster as seen by `Player::check_and_remove_hit_monster`: the bearing
`atan2(it->y - y, it->x - x)` and the distance `sqrt(pow(..) + pow(..))` are
floating-point library results and enter the model as the data of this view. -/
structure MonsterView where
  sprite_dir : ℚ
  sprite_dist : ℚ

/-- First normalization loop: `while (sprite_dir - a > pi) sprite_dir -= 2*pi`
(fuel-bounded; `pi` is the source's `M_PI` float constant, a rational). -/
def normUp (pi a : ℚ) : Nat → ℚ → ℚ
  | 0, d => d
  | n + 1, d => if pi < d - a then normUp pi a n (d - 2 * pi) else d

/-- Second normalization loop: `while (sprite_dir - a < -pi) sprite_dir += 2*pi`. -/
def normDown (pi a : ℚ) : Nat → ℚ → ℚ
  | 0, d => d
  | n + 1, d => if d - a < -pi then normDown pi a n (d + 2 * pi) else d

/-- Both normalization loops in source order. -/
def normalizeDir (pi a : ℚ) (fuel : Nat) (d : ℚ) : ℚ :=
  normDown pi a fuel (normUp pi a fuel d)

/-- The hit condition of `check_and_remove_hit_monster`:
`sprite_dist < 15 && abs(sprite_dir - a) < shooting_fov / 2` with
`shooting_fov = fov / 10`. -/
def isHit (pi a fov : ℚ) (fuel : Nat) (mv : MonsterView) : Bool :=
  decide (mv.sprite_dist < 15) &&
    decide (|normalizeDir pi a fuel mv.sprite_dir - a| < fov / 10 / 2)

/-- `Player::check_and_remove_hit_monster`: the erase-while-iterating loop,
which keeps exactly the monsters that fail the hit condition. -/
def check_and_remove_hit_monster (pi a fov : ℚ) (fuel : Nat) :
    List MonsterView → List MonsterView
  | [] => []
  | mv :: rest =>
    if isHit pi a fov fuel mv then check_and_remove_hit_monster pi a fov fuel rest
    else mv :: check_and_remove_hit_monster pi a fov fuel rest

/-- Per-ray constants of the DDA wall search in `render`:
step directions and the per-axis boundary-to-boundary distances. -/
structure DDAParams where
  stepX : Int
  stepY : Int
  deltaDistX : ℚ
  deltaDistY : ℚ

/-- Mutable state of the DDA loop: current cell, the two side-distance
accumulators, and the `side` flag recording which axis last stepped. -/
structure DDAState where
  mapX : Int
  mapY : Int
  sideDistX : ℚ
  sideDistY : ℚ
  side : Int

/-- One iteration body of the DDA `while (!hit)` loop. -/
def ddaStep (p : DDAParams) (s : DDAState) : DDAState :=
  if s.sideDistX < s.sideDistY then
    { s with sideDistX := s.sideDistX + p.deltaDistX, mapX := s.mapX + p.stepX, side := 0 }
  else
    { s with sideDistY := s.sideDistY + p.deltaDistY, mapY := s.mapY + p.stepY, side := 1 }

/-- `Map::get` at the signed cell coordinates used by the DDA loop;
out-of-grid coordinates (unreachable in the verified casts, and reading
past the buffer in the unchecked source) yield `none`. -/
def mgetZ (m : List Char) (i j : Int) : Option Int :=
  if 0 ≤ i ∧ i < 16 ∧ 0 ≤ j ∧ j < 16 then some (cellCode m i.toNat j.toNat) else none

/-- The loop's hit test `map_value > 0 && map_value != 9` (door-threshold
cells `9` and empty cells are stepped through); an out-of-grid read counts
as no hit, matching that the unchecked source would keep marching. -/
def isWallHit (m : List Char) (i j : Int) : Bool :=
  match mgetZ m i j with
  | some v => decide (0 < v) && decide (v ≠ 9)
  | none => false

/-- `n` iterations of the loop body. -/
def stepN (p : DDAParams) : Nat → DDAState → DDAState
  | 0, s => s
  | n + 1, s => stepN p n (ddaStep p s)

/-- The DDA `while (!hit)` loop, fuel-bounded: returns the state at the
first wall hit, or `none` if the fuel runs out. -/
def ddaRun (m : List Char) (p : DDAParams) : Nat → DDAState → Option DDAState
  | 0, _ => none
  | fuel + 1, s =>
    let s' := ddaStep p s
    if isWallHit m s'.mapX s'.mapY then some s' else ddaRun m p fuel s'

/-- Termination measure: summed distance of the current cell to the far
boundary of each axis in its step direction. -/
def ddaMeasure (p : DDAParams) (s : DDAState) : Int :=
  (if p.stepX = 1 then 15 - s.mapX else s.mapX) +
    (if p.stepY = 1 then 15 - s.mapY else s.mapY)

/-- The current cell lies strictly inside the solid wall perimeter. -/
def ddaInterior (s : DDAState) : Prop :=
  1 ≤ s.mapX ∧ s.mapX ≤ 14 ∧ 1 ≤ s.mapY ∧ s.mapY ≤ 14

/-- Ray angle of screen column `x`:
`(playerViewDir - playerFov/2) + (x / float(fb.w)) * playerFov`. -/
def rayAngle (a fov : ℚ) (x w : Nat) : ℚ := a - fov / 2 + (x : ℚ) / (w : ℚ) * fov

/-- Sentinel for the IEEE `+inf` produced by `abs(1/ray_dir)` on a zero
direction component: larger than any side distance reachable in the grid,
so that axis never wins the side comparison, as with `+inf`. -/
def infQ : ℚ := 10 ^ 9

/-- `delta_dist = std::abs(1 / ray_dir)`, with `+inf` modeled by `infQ`. -/
def deltaDist (c : ℚ) : ℚ := if c = 0 then infQ else |1 / c|

/-- One full column of the wall pass in `render`: initialize the DDA from the
continuous camera position and the ray direction `(dirX, dirY)` (the
`cos`/`sin` of the ray angle, taken as input), run the wall search, and
return the perpendicular wall distance stored into `depth_buffer[x]`
(`none` if the fuel-bounded loop finds no wall). -/
def castColumn (posX posY dirX dirY : ℚ) : Option ℚ :=
  let mapX : Int := cppTrunc posX
  let mapY : Int := cppTrunc posY
  let ddx := deltaDist dirX
  let ddy := deltaDist dirY
  let stepX : Int := if dirX < 0 then -1 else 1
  let sdx : ℚ := if dirX < 0 then (posX - (mapX : ℚ)) * ddx else ((mapX : ℚ) + 1 - posX) * ddx
  let stepY : Int := if dirY < 0 then -1 else 1
  let sdy : ℚ := if dirY < 0 then (posY - (mapY : ℚ)) * ddy else ((mapY : ℚ) + 1 - posY) * ddy
  match ddaRun mapData ⟨stepX, stepY, ddx, ddy⟩ 64 ⟨mapX, mapY, sdx, sdy, 0⟩ with
  | none => none
  | some s =>
    some (if s.side = 0 then ((s.mapX : ℚ) - posX + (1 - (stepX : ℚ)) / 2) / dirX
          else ((s.mapY : ℚ) - posY + (1 - (stepY : ℚ)) / 2) / dirY)

/-- The depth value `render` writes at the exact center column `x = fb.w/2`,
for an arbitrary direction function `dirFn` standing for
`angle ↦ (cos angle, sin angle)`. -/
def centerDepth (dirFn : ℚ → ℚ × ℚ) (posX posY a fov : ℚ) (w : Nat) : Option ℚ :=
  castColumn posX posY (dirFn (rayAngle a fov (w / 2) w)).1 (dirFn (rayAngle a fov (w / 2) w)).2

theorem sub1_small (i : Nat) (h1 : 1 ≤ i) (h2 : i < usize) : sub1 i = i - 1 := by
  simp only [sub1, usize] at h2 ⊢
  omega

theorem getD_set_self (m : List Char) (n : Nat) (a d : Char) (h : n < m.length) :
    (m.set n a).getD n d = a := by
  simp [List.getD]
  rw [List.getElem?_set_self]
  · simp
  · exact h

theorem cellCode_three (m : List Char) (i j : Nat) :
    cellCode m i j = 3 ↔ m.getD (i + j * mapW) ' ' = '3' := by
  unfold cellCode
  constructor
  · intro h
    have hn : (m.getD (i + j * mapW) ' ').toNat = 51 := by omega
    have h2 := Char.ofNat_toNat (m.getD (i + j * mapW) ' ')
    rw [hn] at h2
    rw [← h2]
  · intro h
    rw [h]
    decide

/-- C5: at an in-bounds cell, `open_door` turns a closed-door cell (code 3)
into an empty cell, flipping `is_empty` from false to true; at any other
cell it leaves the map unchanged; and it is idempotent. -/
theorem open_door_spec (m : List Char) (i j : Nat) (hi : i < 16) (hj : j < 16)
    (hlen : m.length = 256) :
    (cellCode m i j = 3 →
      is_empty m i j = false ∧ is_empty (open_door m i j) i j = true) ∧
    (cellCode m i j ≠ 3 → open_door m i j = m) ∧
    open_door (open_door m i j) i j = open_door m i j := by
  have hidx : i + j * mapW < 256 := by simp only [mapW]; omega
  have hb : i < mapW ∧ j < mapH := by simp only [mapW, mapH]; omega
  refine ⟨?_, ?_, ?_⟩
  · intro h3
    rw [cellCode_three] at h3
    have hOD : open_door m i j = m.set (i + j * mapW) ' ' := by
      unfold open_door
      rw [if_pos hb, if_pos h3]
    constructor
    · unfold is_empty
      rw [if_pos hb, h3]
      decide
    · rw [hOD]
      unfold is_empty
      rw [if_pos hb, getD_set_self m _ _ _ (by omega)]
      decide
  · intro h3
    have hc : m.getD (i + j * mapW) ' ' ≠ '3' := fun hh => h3 ((cellCode_three m i j).mpr hh)
    unfold open_door
    rw [if_pos hb, if_neg hc]
  · by_cases h3 : m.getD (i + j * mapW) ' ' = '3'
    · have hOD : open_door m i j = m.set (i + j * mapW) ' ' := by
        unfold open_door
        rw [if_pos hb, if_pos h3]
      rw [hOD]
      unfold open_door
      rw [if_pos hb, if_neg]
      rw [getD_set_self m _ _ _ (by omega)]
      decide
    · have hOD : open_door m i j = m := by
        unfold open_door
        rw [if_pos hb, if_neg h3]
      rw [hOD]
      exact hOD

theorem open_door_spec_witness :
    (11 : Nat) < 16 ∧ (2 : Nat) < 16 ∧ mapData.length = 256 ∧
    ((cellCode mapData 11 2 = 3 →
        is_empty mapData 11 2 = false ∧ is_empty (open_door mapData 11 2) 11 2 = true) ∧
      (cellCode mapData 11 2 ≠ 3 → open_door mapData 11 2 = mapData) ∧
      open_door (open_door mapData 11 2) 11 2 = open_door mapData 11 2) :=
  ⟨by decide, by decide, by decide,
    open_door_spec mapData 11 2 (by decide) (by decide) (by decide)⟩

/-- C8: on every interior cell, `check_door` agrees with the specified scan:
the unit offset of the first neighbor (order +x, -x, +y, -y) holding the
closed-door code 3, or `(0,0)` if none; the first match wins. -/
theorem check_door_first_match (m : List Char) (i j : Nat)
    (hi1 : 1 ≤ i) (hi2 : i ≤ 14) (hj1 : 1 ≤ j) (hj2 : j ≤ 14) :
    check_door m i j = doorScanSpec m i j := by
  have hsi : sub1 i = i - 1 := sub1_small i hi1 (by simp only [usize]; omega)
  have hsj : sub1 j = j - 1 := sub1_small j hj1 (by simp only [usize]; omega)
  have t1 : ((i : Int) + 1).toNat = i + 1 := by omega
  have t2 : ((i : Int) + (-1)).toNat = i - 1 := by omega
  have t3 : ((j : Int) + 1).toNat = j + 1 := by omega
  have t4 : ((j : Int) + (-1)).toNat = j - 1 := by omega
  have t5 : ((i : Int) + 0).toNat = i := by omega
  have t6 : ((j : Int) + 0).toNat = j := by omega
  simp only [check_door, doorScanSpec, doorOffsets, List.find?, neighborIsDoor,
    hsi, hsj, t1, t2, t3, t4, t5, t6]
  by_cases c1 : mget m (i + 1) j = some 3
  · simp [c1]
  · simp only [c1, decide_eq_true_eq, if_neg, decide_False]
    by_cases c2 : mget m (i - 1) j = some 3
    · simp [c2]
    · by_cases c3 : mget m i (j + 1) = some 3
      · simp [c1, c2, c3]
      · by_cases c4 : mget m i (j - 1) = some 3
        · simp [c1, c2, c3, c4]
        · simp [c1, c2, c3, c4]

theorem check_door_first_match_witness :
    (1 : Nat) ≤ 10 ∧ (10 : Nat) ≤ 14 ∧ (1 : Nat) ≤ 2 ∧ (2 : Nat) ≤ 14 ∧
    check_door mapData 10 2 = doorScanSpec mapData 10 2 :=
  ⟨by decide, by decide, by decide, by decide,
    check_door_first_match mapData 10 2 (by decide) (by decide) (by decide) (by decide)⟩

/-- C10: the four neighbor probes of `check_door` stay inside the 16x16 grid
exactly on interior cells (`1 ≤ i ≤ 14 ∧ 1 ≤ j ≤ 14`); on a border cell with
`i = 0` (resp. `j = 0`) the `size_t` decrement wraps to 2^64 - 1 and the
corresponding probe is out of the grid, so the total `get` yields `none`
rather than a cell code. -/
theorem check_door_interior_safe (i j : Nat) (hi : i < 16) (hj : j < 16) :
    (checkDoorProbesInBounds i j ↔ 1 ≤ i ∧ i ≤ 14 ∧ 1 ≤ j ∧ j ≤ 14) ∧
    (i = 0 → ∀ m : List Char, mget m (sub1 i) j = none) ∧
    (j = 0 → ∀ m : List Char, mget m i (sub1 j) = none) := by
  have hs0 : sub1 0 = 18446744073709551615 := by simp [sub1, usize]
  have key : ∀ a : Nat, a < 16 → (sub1 a < 16 ↔ 1 ≤ a) := by
    intro a ha
    constructor
    · intro h
      by_contra hc
      have ha0 : a = 0 := by omega
      rw [ha0, hs0] at h
      omega
    · intro h
      rw [sub1_small a h (by simp only [usize]; omega)]
      omega
  refine ⟨?_, ?_, ?_⟩
  · simp only [checkDoorProbesInBounds, mapW, mapH]
    rw [key i hi, key j hj]
    omega
  · intro h0 m
    subst h0
    unfold mget
    rw [if_neg]
    intro hcon
    rw [hs0] at hcon
    simp only [mapW] at hcon
    omega
  · intro h0 m
    subst h0
    unfold mget
    rw [if_neg]
    intro hcon
    rw [hs0] at hcon
    simp only [mapH] at hcon
    omega

theorem border_wall_nat :
    ∀ a : Nat, a < 16 → ∀ b : Nat, b < 16 → (a = 0 ∨ a = 15 ∨ b = 0 ∨ b = 15) →
      isWallHit mapData (a : Int) (b : Int) = true := by decide

theorem ddaStep_box (p : DDAParams) (hx : p.stepX = 1 ∨ p.stepX = -1)
    (hy : p.stepY = 1 ∨ p.stepY = -1) (s : DDAState) (hs : ddaInterior s) :
    0 ≤ (ddaStep p s).mapX ∧ (ddaStep p s).mapX ≤ 15 ∧
      0 ≤ (ddaStep p s).mapY ∧ (ddaStep p s).mapY ≤ 15 := by
  obtain ⟨h1, h2, h3, h4⟩ := hs
  unfold ddaStep
  split <;> rcases hx with hx | hx <;> rcases hy with hy | hy <;> simp [hx, hy] <;> omega

theorem interior_of_not_wall (x y : Int) (hb : 0 ≤ x ∧ x ≤ 15 ∧ 0 ≤ y ∧ y ≤ 15)
    (hw : isWallHit mapData x y = false) : 1 ≤ x ∧ x ≤ 14 ∧ 1 ≤ y ∧ y ≤ 14 := by
  by_contra hcon
  have hcase : x = 0 ∨ x = 15 ∨ y = 0 ∨ y = 15 := by omega
  have hcast : x = ((x.toNat : Nat) : Int) := (Int.toNat_of_nonneg hb.1).symm
  have hcast2 : y = ((y.toNat : Nat) : Int) := (Int.toNat_of_nonneg hb.2.2.1).symm
  have hbw := border_wall_nat x.toNat (by omega) y.toNat (by omega) (by omega)
  rw [← hcast, ← hcast2] at hbw
  rw [hbw] at hw
  simp at hw

theorem ddaMeasure_step (p : DDAParams) (hx : p.stepX = 1 ∨ p.stepX = -1)
    (hy : p.stepY = 1 ∨ p.stepY = -1) (s : DDAState) :
    ddaMeasure p (ddaStep p s) = ddaMeasure p s - 1 := by
  rcases hx with hx | hx <;> rcases hy with hy | hy <;>
    unfold ddaStep <;> split <;> simp [ddaMeasure, hx, hy] <;> omega

theorem measure_ge_two (p : DDAParams) (s : DDAState) (hs : ddaInterior s) :
    2 ≤ ddaMeasure p s := by
  obtain ⟨h1, h2, h3, h4⟩ := hs
  unfold ddaMeasure
  split <;> split <;> omega

theorem dda_aux (p : DDAParams) (hx : p.stepX = 1 ∨ p.stepX = -1)
    (hy : p.stepY = 1 ∨ p.stepY = -1) :
    ∀ (fuel : Nat) (s : DDAState), ddaInterior s → ddaMeasure p s ≤ (fuel : Int) + 1 →
      ∃ n, 1 ≤ n ∧ n ≤ fuel ∧
        isWallHit mapData (stepN p n s).mapX (stepN p n s).mapY = true ∧
        (∀ k, 1 ≤ k → k < n → isWallHit mapData (stepN p k s).mapX (stepN p k s).mapY = false) ∧
        ddaRun mapData p fuel s = some (stepN p n s) := by
  intro fuel
  induction fuel with
  | zero =>
    intro s hs hm
    have := measure_ge_two p s hs
    omega
  | succ fuel ih =>
    intro s hs hm
    have hbox := ddaStep_box p hx hy s hs
    by_cases hw : isWallHit mapData (ddaStep p s).mapX (ddaStep p s).mapY = true
    · refine ⟨1, le_refl 1, by omega, ?_, ?_, ?_⟩
      · simpa [stepN] using hw
      · intro k hk1 hk2; omega
      · simp [ddaRun, hw, stepN]
    · have hwf : isWallHit mapData (ddaStep p s).mapX (ddaStep p s).mapY = false := by
        simpa using hw
      have hs' : ddaInterior (ddaStep p s) :=
        interior_of_not_wall _ _ hbox hwf
      have hm' : ddaMeasure p (ddaStep p s) ≤ (fuel : Int) + 1 := by
        rw [ddaMeasure_step p hx hy s]
        push_cast at hm ⊢
        omega
      obtain ⟨n, hn1, hn2, hwall, hbefore, hrun⟩ := ih (ddaStep p s) hs' hm'
      refine ⟨n + 1, by omega, by omega, ?_, ?_, ?_⟩
      · simpa [stepN] using hwall
      · intro k hk1 hk2
        match k, hk1 with
        | 1, _ => simpa [stepN] using hwf
        | (k' + 2), _ =>
          have hbk : isWallHit mapData (stepN p (k' + 1) (ddaStep p s)).mapX
              (stepN p (k' + 1) (ddaStep p s)).mapY = false :=
            hbefore (k' + 1) (by omega) (by omega)
          simpa [stepN] using hbk
      · simp only [ddaRun, hwf]
        simpa [stepN] using hrun

/-- C2: for any ray parameters (unit steps on each axis, arbitrary side and
delta distances) starting from a camera cell strictly inside the wall-enclosed
16x16 map, the DDA loop terminates within 28 grid steps at the first traversed
cell whose code is a wall (`code > 0` and `≠ 9`); every earlier traversed cell
fails the wall test (empty or door-threshold `9` cells are stepped through). -/
theorem dda_terminates_first_wall (p : DDAParams) (s : DDAState)
    (hx : p.stepX = 1 ∨ p.stepX = -1) (hy : p.stepY = 1 ∨ p.stepY = -1)
    (h1 : 1 ≤ s.mapX) (h2 : s.mapX ≤ 14) (h3 : 1 ≤ s.mapY) (h4 : s.mapY ≤ 14) :
    ∃ n, 1 ≤ n ∧ n ≤ 28 ∧
      isWallHit mapData (stepN p n s).mapX (stepN p n s).mapY = true ∧
      (∀ k, 1 ≤ k → k < n → isWallHit mapData (stepN p k s).mapX (stepN p k s).mapY = false) ∧
      ddaRun mapData p 28 s = some (stepN p n s) := by
  apply dda_aux p hx hy 28 s ⟨h1, h2, h3, h4⟩
  unfold ddaMeasure
  split <;> split <;> omega

theorem dda_terminates_first_wall_witness :
    ∃ n, 1 ≤ n ∧ n ≤ 28 ∧
      isWallHit mapData (stepN ⟨1, 1, 1, 2⟩ n ⟨2, 14, 1/2, 1/3, 0⟩).mapX
        (stepN ⟨1, 1, 1, 2⟩ n ⟨2, 14, 1/2, 1/3, 0⟩).mapY = true ∧
      (∀ k, 1 ≤ k → k < n →
        isWallHit mapData (stepN ⟨1, 1, 1, 2⟩ k ⟨2, 14, 1/2, 1/3, 0⟩).mapX
          (stepN ⟨1, 1, 1, 2⟩ k ⟨2, 14, 1/2, 1/3, 0⟩).mapY = false) ∧
      ddaRun mapData ⟨1, 1, 1, 2⟩ 28 ⟨2, 14, 1/2, 1/3, 0⟩ =
        some (stepN ⟨1, 1, 1, 2⟩ n ⟨2, 14, 1/2, 1/3, 0⟩) :=
  dda_terminates_first_wall ⟨1, 1, 1, 2⟩ ⟨2, 14, 1/2, 1/3, 0⟩ (Or.inl rfl) (Or.inl rfl)
    (by decide) (by decide) (by decide) (by decide)

/-- C7: `get_scaled_column` with output height `outH` samples source row
`y * size / outH` at output row `y`; with `outH = size` it returns exactly
the source column, and with `outH = 2*size` each source pixel is duplicated
once vertically. -/
theorem get_scaled_column_spec (t : Texture) (id coord outH : Nat)
    (hc : coord < t.size) (hid : id < t.count) :
    (∀ y, y < outH →
        (t.get_scaled_column id coord outH).getD y 0 = t.get coord (y * t.size / outH) id) ∧
    (outH = t.size →
        t.get_scaled_column id coord outH = (List.range t.size).map fun y => t.get coord y id) ∧
    (outH = 2 * t.size → ∀ r, r < t.size →
        (t.get_scaled_column id coord outH).getD (2 * r) 0 = t.get coord r id ∧
        (t.get_scaled_column id coord outH).getD (2 * r + 1) 0 = t.get coord r id) := by
  have hs : 0 < t.size := by omega
  have hgen : ∀ y, y < outH →
      (t.get_scaled_column id coord outH).getD y 0 = t.get coord (y * t.size / outH) id := by
    intro y hy
    simp [Texture.get_scaled_column, List.getD, List.getElem?_map, List.getElem?_range, hy]
  refine ⟨hgen, ?_, ?_⟩
  · intro h
    subst h
    unfold Texture.get_scaled_column
    apply List.map_congr_left
    intro y hy
    rw [Nat.mul_div_cancel _ hs]
  · intro h r hr
    subst h
    constructor
    · rw [hgen (2 * r) (by omega)]
      have harith : 2 * r * t.size = r * (2 * t.size) := by ring
      rw [harith, Nat.mul_div_cancel _ (by omega)]
    · rw [hgen (2 * r + 1) (by omega)]
      have harith : (2 * r + 1) * t.size = t.size + 2 * t.size * r := by ring
      rw [harith, Nat.add_mul_div_left _ _ (by omega : 0 < 2 * t.size),
        Nat.div_eq_of_lt (by omega)]
      simp

theorem get_scaled_column_spec_witness :
    (1 : Nat) < (⟨4, 2, 2, 2, id⟩ : Texture).size ∧
    (1 : Nat) < (⟨4, 2, 2, 2, id⟩ : Texture).count ∧
    ((∀ y, y < 4 →
        ((⟨4, 2, 2, 2, id⟩ : Texture).get_scaled_column 1 1 4).getD y 0 =
          (⟨4, 2, 2, 2, id⟩ : Texture).get 1 (y * 2 / 4) 1) ∧
      (4 = 2 →
        (⟨4, 2, 2, 2, id⟩ : Texture).get_scaled_column 1 1 4 =
          (List.range 2).map fun y =>
            (⟨4, 2, 2, 2, id⟩ : Texture).get 1 y 1) ∧
      (4 = 2 * 2 → ∀ r, r < 2 →
        ((⟨4, 2, 2, 2, id⟩ : Texture).get_scaled_column 1 1 4).getD (2 * r) 0 =
          (⟨4, 2, 2, 2, id⟩ : Texture).get 1 r 1 ∧
        ((⟨4, 2, 2, 2, id⟩ : Texture).get_scaled_column 1 1 4).getD (2 * r + 1) 0 =
          (⟨4, 2, 2, 2, id⟩ : Texture).get 1 r 1)) :=
  ⟨by decide, by decide,
    get_scaled_column_spec ⟨4, 2, 2, 2, id⟩ 1 1 4
      (by decide) (by decide)⟩

/-- C1 counterexample: a surface that decodes successfully, has 32-bit pixels
(`pitch = 4*w`), and whose width 3 is not a multiple of its height 2, is not
rejected by the constructor: the load succeeds with `count = 3/2 = 1 ≠ 0`
(the square-tile check is commented out as deprecated in `textures.cpp`). -/
theorem texture_nonsquare_accepted :
    ¬ (2 ∣ 3) ∧ 3 * 4 = 12 ∧
      texCount (textureCtor (some ⟨3, 2, 12, (fun _ => 0), (fun _ => 0), (fun _ => 0),
        (fun _ => 0)⟩)) = 1 :=
  ⟨by decide, by decide, rfl⟩

/-- C1 (amended): after a successful decode, the only load failure is a pitch
different from `4*w`; any 32-bit image is accepted regardless of whether its
width is a multiple of its height, with `count = w/h` and `size = w/count`. -/
theorem textureCtor_spec (s : Surface) (h32 : s.w * 4 = s.pitch) :
    textureCtor none = .errDecode ∧
    (∀ s' : Surface, s'.w * 4 ≠ s'.pitch → textureCtor (some s') = .errNot32Bit) ∧
    ∃ t, textureCtor (some s) = .ok t ∧ t.count = s.w / s.h ∧ t.size = s.w / (s.w / s.h) ∧
      t.img_w = s.w ∧ t.img_h = s.h := by
  refine ⟨rfl, ?_, ?_⟩
  · intro s' hne
    simp only [textureCtor]
    rw [if_pos hne]
  · refine ⟨mkTexture s, ?_, rfl, rfl, rfl, rfl⟩
    simp only [textureCtor]
    rw [if_neg (fun hc => hc h32)]

theorem textureCtor_spec_witness :
    (3 : Nat) * 4 = 12 ∧
    (textureCtor none = .errDecode ∧
      (∀ s' : Surface, s'.w * 4 ≠ s'.pitch → textureCtor (some s') = .errNot32Bit) ∧
      ∃ t, textureCtor (some ⟨3, 2, 12, (fun _ => 1), (fun _ => 2), (fun _ => 3),
          (fun _ => 4)⟩) = .ok t ∧
        t.count = 3 / 2 ∧ t.size = 3 / (3 / 2) ∧ t.img_w = 3 ∧ t.img_h = 2) :=
  ⟨by decide,
    textureCtor_spec ⟨3, 2, 12, (fun _ => 1), (fun _ => 2), (fun _ => 3), (fun _ => 4)⟩
      (by decide)⟩

/-- C6: the hit test removes a monster exactly when its distance to the camera
is below 15 and the normalized angular deviation from the heading is below
`(fov/10)/2`; removal depends on nothing else (in particular the function
consults no map, so wall occlusion cannot affect it). -/
theorem hit_removal_iff :
    ∀ (pi a fov : ℚ) (fuel : Nat) (ms : List MonsterView),
      check_and_remove_hit_monster pi a fov fuel ms =
        ms.filter (fun mv => ! isHit pi a fov fuel mv) ∧
      (∀ mv : MonsterView, mv ∈ check_and_remove_hit_monster pi a fov fuel ms ↔
        (mv ∈ ms ∧ isHit pi a fov fuel mv = false)) ∧
      (∀ mv : MonsterView, isHit pi a fov fuel mv = true ↔
        (mv.sprite_dist < 15 ∧ |normalizeDir pi a fuel mv.sprite_dir - a| < fov / 10 / 2)) := by
  intro pi a fov fuel ms
  have hfilter : check_and_remove_hit_monster pi a fov fuel ms =
      ms.filter (fun mv => ! isHit pi a fov fuel mv) := by
    induction ms with
    | nil => rfl
    | cons mv rest ih =>
      by_cases h : isHit pi a fov fuel mv
      · simp [check_and_remove_hit_monster, List.filter_cons, h, ih]
      · simp [check_and_remove_hit_monster, List.filter_cons, h, ih]
  refine ⟨hfilter, ?_, ?_⟩
  · intro mv
    rw [hfilter]
    simp [List.mem_filter]
  · intro mv
    simp [isHit]

/-- C4 counterexample: from `(x, y) = (8.94, 5.92)` with candidate `(9, 6)`
(a step of length exactly 0.1 in direction `(0.6, 0.8)`), the start cell
`(8,5)` is walkable, the x-move is free (cell `(9,5)` walkable), the y-move
is blocked on the claim's cell `(trunc x, trunc ny) = (8,6)` — yet
`update_position` moves BOTH coordinates to `(9, 6)`, because the second
check uses the already-updated x and tests cell `(9,6)`, which is walkable.
The blocked axis's coordinate does not stay unchanged. -/
theorem update_position_slide_cex :
    is_emptyZ mapData (cppTrunc (447/50 : ℚ)) (cppTrunc (148/25 : ℚ)) = true ∧
    is_emptyZ mapData (cppTrunc (9 : ℚ)) (cppTrunc (148/25 : ℚ)) = true ∧
    is_emptyZ mapData (cppTrunc (447/50 : ℚ)) (cppTrunc (6 : ℚ)) = false ∧
    update_position mapData (447/50) (148/25) 9 6 = (9, 6) ∧
    (148/25 : ℚ) ≠ 6 := by
  have t1 : cppTrunc (447/50 : ℚ) = 8 := by
    unfold cppTrunc
    rw [if_neg (by norm_num)]
    norm_num
  have t2 : cppTrunc (148/25 : ℚ) = 5 := by
    unfold cppTrunc
    rw [if_neg (by norm_num)]
    norm_num
  have t3 : cppTrunc (9 : ℚ) = 9 := by
    unfold cppTrunc
    rw [if_neg (by norm_num)]
    norm_num
  have t4 : cppTrunc (6 : ℚ) = 6 := by
    unfold cppTrunc
    rw [if_neg (by norm_num)]
    norm_num
  refine ⟨?_, ?_, ?_, ?_, by norm_num⟩
  · rw [t1, t2]
    decide
  · rw [t3, t2]
    decide
  · rw [t1, t4]
    decide
  · unfold update_position
    rw [t3, t4]
    rw [if_pos (by decide)]
    have hux : upd_x mapData (447/50) (148/25) 9 = 9 := by
      unfold upd_x
      rw [t3, t2]
      rw [if_pos (by decide)]
    rw [hux]
    have huy : upd_y mapData 9 (148/25) 6 = 6 := by
      unfold upd_y
      rw [t3, t4]
      rw [if_pos (by decide)]
    rw [huy]

/-- C4 (amended): (1) a walkable integer cell stays walkable across
`update_position`; (2) when the x-axis is blocked and the y-axis free, the
result is exactly `(x, ny)` (only the unblocked axis moves); (3) when the
y-axis is blocked and the x-axis free, the y coordinate stays unchanged
provided the x-move does not cross into a new integer column
(`cppTrunc nx = cppTrunc x`) — without that proviso the second check runs
against the new column and the blocked axis may move too (see the
counterexample). -/
theorem update_position_spec (m : List Char) (x y nx ny : ℚ)
    (hstart : is_emptyZ m (cppTrunc x) (cppTrunc y) = true) :
    is_emptyZ m (cppTrunc (update_position m x y nx ny).1)
      (cppTrunc (update_position m x y nx ny).2) = true ∧
    (0 ≤ cppTrunc nx → cppTrunc nx < 16 → 0 ≤ cppTrunc ny → cppTrunc ny < 16 →
      is_emptyZ m (cppTrunc nx) (cppTrunc y) = false →
      is_emptyZ m (cppTrunc x) (cppTrunc ny) = true →
      update_position m x y nx ny = (x, ny)) ∧
    (cppTrunc nx = cppTrunc x →
      0 ≤ cppTrunc nx → cppTrunc nx < 16 → 0 ≤ cppTrunc ny → cppTrunc ny < 16 →
      is_emptyZ m (cppTrunc x) (cppTrunc ny) = false →
      is_emptyZ m (cppTrunc nx) (cppTrunc y) = true →
      update_position m x y nx ny = (nx, y)) := by
  refine ⟨?_, ?_, ?_⟩
  · unfold update_position
    by_cases hb : 0 ≤ cppTrunc nx ∧ cppTrunc nx < 16 ∧ 0 ≤ cppTrunc ny ∧ cppTrunc ny < 16
    · rw [if_pos hb]
      by_cases h1 : is_emptyZ m (cppTrunc nx) (cppTrunc y) = true
      · have hux : upd_x m x y nx = nx := by
          unfold upd_x
          rw [if_pos h1]
        rw [hux]
        by_cases h2 : is_emptyZ m (cppTrunc nx) (cppTrunc ny) = true
        · have huy : upd_y m nx y ny = ny := by
            unfold upd_y
            rw [if_pos h2]
          rw [huy]
          exact h2
        · have huy : upd_y m nx y ny = y := by
            unfold upd_y
            rw [if_neg h2]
          rw [huy]
          exact h1
      · have hux : upd_x m x y nx = x := by
          unfold upd_x
          rw [if_neg h1]
        rw [hux]
        by_cases h2 : is_emptyZ m (cppTrunc x) (cppTrunc ny) = true
        · have huy : upd_y m x y ny = ny := by
            unfold upd_y
            rw [if_pos h2]
          rw [huy]
          exact h2
        · have huy : upd_y m x y ny = y := by
            unfold upd_y
            rw [if_neg h2]
          rw [huy]
          exact hstart
    · rw [if_neg hb]
      exact hstart
  · intro b1 b2 b3 b4 hxblocked hyfree
    unfold update_position
    rw [if_pos ⟨b1, b2, b3, b4⟩]
    have hux : upd_x m x y nx = x := by
      unfold upd_x
      rw [if_neg (by rw [hxblocked]; exact Bool.false_ne_true)]
    rw [hux]
    have huy : upd_y m x y ny = ny := by
      unfold upd_y
      rw [if_pos hyfree]
    rw [huy]
  · intro heq b1 b2 b3 b4 hyblocked hxfree
    unfold update_position
    rw [if_pos ⟨b1, b2, b3, b4⟩]
    have hux : upd_x m x y nx = nx := by
      unfold upd_x
      rw [if_pos hxfree]
    rw [hux]
    have huy : upd_y m nx y ny = y := by
      unfold upd_y
      rw [if_neg (by rw [heq, hyblocked]; exact Bool.false_ne_true)]
    rw [huy]

theorem update_position_spec_witness :
    is_emptyZ mapData (cppTrunc (2 : ℚ)) (cppTrunc (14 : ℚ)) = true ∧
    (is_emptyZ mapData (cppTrunc (update_position mapData 2 14 2 14).1)
        (cppTrunc (update_position mapData 2 14 2 14).2) = true ∧
      (0 ≤ cppTrunc (2 : ℚ) → cppTrunc (2 : ℚ) < 16 →
        0 ≤ cppTrunc (14 : ℚ) → cppTrunc (14 : ℚ) < 16 →
        is_emptyZ mapData (cppTrunc (2 : ℚ)) (cppTrunc (14 : ℚ)) = false →
        is_emptyZ mapData (cppTrunc (2 : ℚ)) (cppTrunc (14 : ℚ)) = true →
        update_position mapData 2 14 2 14 = (2, 14)) ∧
      (cppTrunc (2 : ℚ) = cppTrunc (2 : ℚ) →
        0 ≤ cppTrunc (2 : ℚ) → cppTrunc (2 : ℚ) < 16 →
        0 ≤ cppTrunc (14 : ℚ) → cppTrunc (14 : ℚ) < 16 →
        is_emptyZ mapData (cppTrunc (2 : ℚ)) (cppTrunc (14 : ℚ)) = false →
        is_emptyZ mapData (cppTrunc (2 : ℚ)) (cppTrunc (14 : ℚ)) = true →
        update_position mapData 2 14 2 14 = (2, 14))) := by
  have e2 : cppTrunc (2 : ℚ) = 2 := by
    unfold cppTrunc
    rw [if_neg (by norm_num)]
    norm_num
  have e14 : cppTrunc (14 : ℚ) = 14 := by
    unfold cppTrunc
    rw [if_neg (by norm_num)]
    norm_num
  have pf : is_emptyZ mapData (cppTrunc (2 : ℚ)) (cppTrunc (14 : ℚ)) = true := by
    rw [e2, e14]
    decide
  exact ⟨pf, update_position_spec mapData 2 14 2 14 pf⟩

theorem foldl_pixel_inv {β : Type} (P : Nat → Nat → Nat → Prop)
    (step : FrameBufferFn → β → FrameBufferFn)
    (hstep : ∀ fb b px py, (step fb b) px py = fb px py ∨ P px py ((step fb b) px py)) :
    ∀ (l : List β) (fb : FrameBufferFn) (px py : Nat),
      (l.foldl step fb) px py = fb px py ∨ P px py ((l.foldl step fb) px py) := by
  intro l
  induction l with
  | nil =>
    intro fb px py
    exact Or.inl rfl
  | cons b rest ih =>
    intro fb px py
    rw [List.foldl_cons]
    rcases ih (step fb b) px py with h | h
    · rw [h]
      exact hstep fb b px py
    · exact Or.inr h

theorem inner_step_prop (sprite_dist : ℚ) (depth : Nat → ℚ) (v_offset : Int) (fbH : Nat)
    (tex : Texture) (tex_id sss i colN : Nat) (hdep : sprite_dist ≤ depth colN) :
    ∀ (fb : FrameBufferFn) (j px py : Nat),
      (spriteInnerStep v_offset fbH tex tex_id sss i colN fb j) px py = fb px py ∨
        (sprite_dist ≤ depth px ∧
          128 < alphaOf ((spriteInnerStep v_offset fbH tex tex_id sss i colN fb j) px py)) := by
  intro fb j px py
  unfold spriteInnerStep
  by_cases hg : v_offset + (j : Int) < 0 ∨ fbH ≤ (v_offset + (j : Int)).toNat
  · rw [if_pos hg]
    exact Or.inl rfl
  · rw [if_neg hg]
    by_cases ha : 128 < alphaOf (tex.get (i * tex.size / sss) (j * tex.size / sss) tex_id)
    · simp only [if_pos ha, set_pixel]
      by_cases hp : px = colN ∧ py = (v_offset + (j : Int)).toNat
      · rw [if_pos hp]
        exact Or.inr ⟨hp.1 ▸ hdep, ha⟩
      · rw [if_neg hp]
        exact Or.inl rfl
    · simp only [if_neg ha]
      exact Or.inl trivial

theorem outer_step_prop (sprite_dist : ℚ) (h_offset v_offset : Int) (fbW fbH : Nat)
    (depth : Nat → ℚ) (tex : Texture) (tex_id sss : Nat) :
    ∀ (fb : FrameBufferFn) (i px py : Nat),
      (spriteOuterStep sprite_dist h_offset v_offset fbW fbH depth tex tex_id sss fb i) px py =
        fb px py ∨
        (sprite_dist ≤ depth px ∧
          128 < alphaOf ((spriteOuterStep sprite_dist h_offset v_offset fbW fbH depth tex
            tex_id sss fb i) px py)) := by
  intro fb i px py
  unfold spriteOuterStep
  by_cases hg : h_offset + (i : Int) < 0 ∨ fbW ≤ (h_offset + (i : Int)).toNat
  · rw [if_pos hg]
    exact Or.inl rfl
  · rw [if_neg hg]
    by_cases hd : depth (h_offset + (i : Int)).toNat < sprite_dist
    · rw [if_pos hd]
      exact Or.inl rfl
    · rw [if_neg hd]
      exact foldl_pixel_inv
        (fun q _ c => sprite_dist ≤ depth q ∧ 128 < alphaOf c)
        (spriteInnerStep v_offset fbH tex tex_id sss i (h_offset + (i : Int)).toNat)
        (inner_step_prop sprite_dist depth v_offset fbH tex tex_id sss i _ (not_lt.mp hd))
        (List.range sss) fb px py

/-- C3: any pixel `draw_sprite` changes lies on a screen column whose stored
depth-buffer value is at least the sprite's distance (never strictly less),
holds a texel whose alpha channel exceeds 128, and is only produced for a
sprite within the render distance 15. -/
theorem draw_sprite_occlusion_alpha (sprite_dir sprite_dist a fov : ℚ) (fbW fbH : Nat)
    (depth : Nat → ℚ) (tex : Texture) (tex_id : Nat) (fb : FrameBufferFn) (px py : Nat)
    (hchg : draw_sprite sprite_dir sprite_dist a fov fbW fbH depth tex tex_id fb px py ≠
      fb px py) :
    sprite_dist ≤ 15 ∧ sprite_dist ≤ depth px ∧
      128 < alphaOf (draw_sprite sprite_dir sprite_dist a fov fbW fbH depth tex tex_id
        fb px py) := by
  by_cases h15 : 15 < sprite_dist
  · exfalso
    apply hchg
    simp only [draw_sprite, if_pos h15]
  · simp only [draw_sprite, if_neg h15] at hchg ⊢
    set sssE := min 1000 (cppTrunc ((fbH : ℚ) / sprite_dist)).toNat with hsss
    set hoffE := cppTrunc ((sprite_dir - a) * (fbW : ℚ) / fov + ((fbW / 2 : Nat) : ℚ)
      - ((sssE / 2 : Nat) : ℚ)) with hhoff
    set voffE := ((fbH / 2 : Nat) : Int) - ((sssE / 2 : Nat) : Int) with hvoff
    rcases foldl_pixel_inv
        (fun q _ c => sprite_dist ≤ depth q ∧ 128 < alphaOf c)
        (spriteOuterStep sprite_dist hoffE voffE fbW fbH depth tex tex_id sssE)
        (outer_step_prop sprite_dist hoffE voffE fbW fbH depth tex tex_id sssE)
        (List.range sssE) fb px py with h | h
    · exact absurd h hchg
    · exact ⟨not_lt.mp h15, h.1, h.2⟩

theorem draw_sprite_occlusion_alpha_witness :
    (draw_sprite 0 1 0 1 1 1 (fun _ => 16) ⟨1, 1, 1, 1, fun _ => 4278190080⟩ 0
        (fun _ _ => 0) 0 0 ≠ (fun _ _ => (0 : Nat)) 0 0) ∧
    ((1 : ℚ) ≤ 15 ∧ (1 : ℚ) ≤ (fun _ => (16 : ℚ)) 0 ∧
      128 < alphaOf (draw_sprite 0 1 0 1 1 1 (fun _ => 16) ⟨1, 1, 1, 1, fun _ => 4278190080⟩ 0
        (fun _ _ => 0) 0 0)) := by
  have hval : draw_sprite 0 1 0 1 1 1 (fun _ => 16) ⟨1, 1, 1, 1, fun _ => 4278190080⟩ 0
      (fun _ _ => 0) 0 0 = 4278190080 := by
    norm_num [draw_sprite, spriteOuterStep, spriteInnerStep, set_pixel, cppTrunc, alphaOf,
      Texture.get, List.range_succ]
  have hne : draw_sprite 0 1 0 1 1 1 (fun _ => 16) ⟨1, 1, 1, 1, fun _ => 4278190080⟩ 0
      (fun _ _ => 0) 0 0 ≠ (fun _ _ => (0 : Nat)) 0 0 := by
    rw [hval]
    norm_num
  exact ⟨hne, draw_sprite_occlusion_alpha 0 1 0 1 1 1 (fun _ => 16)
    ⟨1, 1, 1, 1, fun _ => 4278190080⟩ 0 (fun _ _ => 0) 0 0 hne⟩

/-- C9: at the exact center column `x = w/2` (even screen width) the ray
angle equals the heading, so the perpendicular wall distance stored in the
depth buffer is the same under any two field-of-view settings from the same
pose; `dirFn` stands for the trigonometric map `angle ↦ (cos, sin)`. -/
theorem center_depth_fov_invariant (dirFn : ℚ → ℚ × ℚ) (posX posY a fov fov' : ℚ)
    (w : Nat) (hw : w ≠ 0) (he : w % 2 = 0) :
    centerDepth dirFn posX posY a fov w = centerDepth dirFn posX posY a fov' w := by
  have hra : ∀ f : ℚ, rayAngle a f (w / 2) w = a := by
    intro f
    obtain ⟨k, rfl⟩ : ∃ k, w = 2 * k := ⟨w / 2, by omega⟩
    have hk : (k : ℚ) ≠ 0 := by
      have hk0 : k ≠ 0 := by omega
      exact_mod_cast hk0
    unfold rayAngle
    have h1 : (2 * k / 2 : Nat) = k := by omega
    rw [h1]
    have h2 : ((2 * k : Nat) : ℚ) = 2 * (k : ℚ) := by push_cast; ring
    rw [h2]
    field_simp
    ring
  unfold centerDepth
  rw [hra fov, hra fov']

theorem center_depth_fov_invariant_witness :
    (4 : Nat) ≠ 0 ∧ (4 : Nat) % 2 = 0 ∧
    centerDepth (fun _ => (1, 0)) (5/2) (29/2) 0 1 4 =
      centerDepth (fun _ => (1, 0)) (5/2) (29/2) 0 2 4 :=
  ⟨by decide, by decide,
    center_depth_fov_invariant (fun _ => (1, 0)) (5/2) (29/2) 0 1 2 4 (by decide) (by decide)⟩

theorem check_door_interior_safe_witness :
    (0 : Nat) < 16 ∧ (5 : Nat) < 16 ∧
    ((checkDoorProbesInBounds 0 5 ↔ 1 ≤ 0 ∧ 0 ≤ 14 ∧ 1 ≤ 5 ∧ 5 ≤ 14) ∧
      ((0 : Nat) = 0 → ∀ m : List Char, mget m (sub1 0) 5 = none) ∧
      ((5 : Nat) = 0 → ∀ m : List Char, mget m 0 (sub1 5) = none)) :=
  ⟨by decide, by decide, check_door_interior_safe 0 5 (by decide) (by decide)⟩

end DoomClone
